import Mathlib

/-!
# Verification of `orbit.py` (RogueAstro/radial)

Shallow embedding of the radial-velocity synthesis code in `orbit.py`.
Floating-point numbers are modelled as real numbers; numpy/scipy library
calls (`np.linspace`, `np.interp`, `sp.newton`) are embedded faithfully
from their documented semantics, except for `sp.newton`, which is external
library code and is modelled from the spec (see `solve_kepler`).

Errors: the Python code itself contains no `raise` statement.  The only
error paths reachable from `get_RVs` are the ones inside `np.interp`
(a `ValueError` for `period == 0` and for an empty sample-point array), so
the embedding returns `Except PyError (List ℝ)`; the constructors
`invalidParameter` and `numericalConvergence` exist to make the spec's
error vocabulary expressible, and the development shows they are never
produced.
-/

noncomputable section

open Real

namespace Orbit

/-- Error kinds: `valueError` is numpy's `ValueError`; `invalidParameter`
and `numericalConvergence` are the spec's error kinds (never produced by
the source code, which performs no input validation). -/
inductive PyError
  | valueError
  | invalidParameter
  | numericalConvergence
deriving DecidableEq

/-- Embedding of `np.arctan2 y x`: the angle of the point `(x, y)`, realised as the
principal argument of the complex number `x + y·i`, in `(-π, π]`.
(numpy's branch at `arctan2(-0.0, x<0) = -π` needs signed zero, which the
reals do not have; on real inputs the conventions agree.) -/
def arctan2 (y x : ℝ) : ℝ := Complex.arg (x + y * Complex.I)

/-- Source `K` (Eq. 66); declared in `orbit.py` but unused by the rest of
the code. -/
def K (m1 m2 n a I e : ℝ) : ℝ :=
  m2 / (m1 + m2) * n * a * Real.sin I / Real.sqrt (1 - e ^ 2)

/-- Source `vr` (Eq. 65): the radial-velocities equation.  The source
rescales `w` by `np.pi/180.` in place and then evaluates
`vz + K*(np.cos(w+f) + e*np.cos(w))`. -/
def vr (vz K w f e : ℝ) : ℝ :=
  vz + K * (Real.cos (w * (π / 180) + f) + e * Real.cos (w * (π / 180)))

/-- Source `kepler` (Eq. 41): the Kepler-equation residual
`E - e*np.sin(E) - M`. -/
def kepler (E e M : ℝ) : ℝ := E - e * Real.sin E - M

/-- The Kepler residual always has a root: `E ↦ E - e sin E - M` is
continuous and takes both signs on `[M - |e| - 1, M + |e| + 1]`. -/
theorem kepler_root_exists (e M : ℝ) : ∃ E, kepler E e M = 0 := by
  have hcont : ContinuousOn (fun E : ℝ => kepler E e M)
      (Set.Icc (M - |e| - 1) (M + |e| + 1)) := by
    apply Continuous.continuousOn
    unfold kepler
    fun_prop
  have hle : M - |e| - 1 ≤ M + |e| + 1 := by
    have := abs_nonneg e
    linarith
  have hmem : (0 : ℝ) ∈ Set.Icc (kepler (M - |e| - 1) e M) (kepler (M + |e| + 1) e M) := by
    have h1 : -|e| ≤ e * Real.sin (M - |e| - 1) := by
      have hge : e * Real.sin (M - |e| - 1) ≥ -|e * Real.sin (M - |e| - 1)| :=
        neg_abs_le _
      have habs : |e * Real.sin (M - |e| - 1)| ≤ |e| := by
        calc |e * Real.sin (M - |e| - 1)| = |e| * |Real.sin (M - |e| - 1)| := abs_mul _ _
          _ ≤ |e| * 1 := mul_le_mul_of_nonneg_left (abs_sin_le_one _) (abs_nonneg e)
          _ = |e| := mul_one _
      linarith
    have h2 : e * Real.sin (M + |e| + 1) ≤ |e| := by
      calc e * Real.sin (M + |e| + 1) ≤ |e * Real.sin (M + |e| + 1)| := le_abs_self _
        _ = |e| * |Real.sin (M + |e| + 1)| := abs_mul _ _
        _ ≤ |e| * 1 := mul_le_mul_of_nonneg_left (abs_sin_le_one _) (abs_nonneg e)
        _ = |e| := mul_one _
    constructor
    · unfold kepler; linarith
    · unfold kepler; linarith
  obtain ⟨E, _, hE⟩ := intermediate_value_Icc hle hcont hmem
  exact ⟨E, hE⟩

/-- Modelled from the spec: `sp.newton` (scipy's secant-method root
finder, external library code) is, per spec §4.2, a solver returning the
root of the Kepler residual for the given `(e, M)`; its internal iteration
is not modelled, only its contract of producing a root. -/
def solve_kepler (e M : ℝ) : ℝ := Classical.choose (kepler_root_exists e M)

theorem solve_kepler_is_root (e M : ℝ) : kepler (solve_kepler e M) e M = 0 :=
  Classical.choose_spec (kepler_root_exists e M)

/-- True anomaly from eccentric anomaly, exactly as computed inline in
`get_RVs`:
`2*np.arctan2(np.sqrt(1.+e)*np.sin(E/2), np.sqrt(1.-e)*np.cos(E/2))`. -/
def true_anomaly (E e : ℝ) : ℝ :=
  2 * arctan2 (Real.sqrt (1 + e) * Real.sin (E / 2))
      (Real.sqrt (1 - e) * Real.cos (E / 2))

/-- Embedding of `np.linspace start stop num` (endpoint included): `num = 0` gives the
empty array, `num = 1` gives `[start]`, otherwise `num` uniformly spaced
samples from `start` to `stop` inclusive. -/
def linspace (start stop : ℝ) (num : ℕ) : List ℝ :=
  if num = 1 then [start]
  else (List.range num).map (fun i => start + (stop - start) * i / ((num : ℝ) - 1))

/-- Python's floored modulo on reals (`x % p` for `p > 0`):
`x - p * ⌊x / p⌋`. -/
def pmod (x p : ℝ) : ℝ := x - p * ⌊x / p⌋

/-- Stable insertion of a point into a list sorted by first component
(part of the embedding of `np.argsort`, which `np.interp` uses to sort
the sample points in its `period` path). -/
def insertPair (q : ℝ × ℝ) : List (ℝ × ℝ) → List (ℝ × ℝ)
  | [] => [q]
  | r :: rest => if q.1 ≤ r.1 then q :: r :: rest else r :: insertPair q rest

/-- Stable sort of `(sample point, sample value)` pairs by sample point.
numpy's default `argsort` is introsort, whose tie order is unspecified;
a stable order is chosen here (no claim depends on tie order). -/
def sortPairs : List (ℝ × ℝ) → List (ℝ × ℝ)
  | [] => []
  | q :: rest => insertPair q (sortPairs rest)

/-- Core piecewise-linear interpolation over a sorted, nonempty list of
`(xp, fp)` pairs, matching numpy's compiled `interp` for default
`left`/`right`: a query left of the first point gets the first value, a
query right of the last point gets the last value, an exact hit on a
sample point gets that sample's value, and otherwise the two bracketing
points are joined linearly.  The `[]` case is unreachable (callers guard
emptiness). -/
def interpSeg (x : ℝ) : List (ℝ × ℝ) → ℝ
  | [] => 0
  | [(_, f0)] => f0
  | (x0, f0) :: (x1, f1) :: rest =>
      if x < x1 then
        if x = x0 then f0
        else f0 + (f1 - f0) / (x1 - x0) * (x - x0)
      else interpSeg x ((x1, f1) :: rest)

/-- Entry to the core interpolation: handles the `x < xp[0]` guard. -/
def npInterpCore (x : ℝ) : List (ℝ × ℝ) → ℝ
  | [] => 0
  | (x0, f0) :: rest => if x < x0 then f0 else interpSeg x ((x0, f0) :: rest)

/-- The `period` path of `np.interp` applied to one already-normalised
query `x ∈ [0, p)`: reduce the sample points mod `p`, sort them together
with their values, pad with one wrapped point on each side
(`xp[-1] - p` carrying `fp[-1]`, and `xp[0] + p` carrying `fp[0]`), then
interpolate. -/
def npInterpGrid (x : ℝ) (xp fp : List ℝ) (p : ℝ) : ℝ :=
  match sortPairs ((xp.map (fun u => pmod u p)).zip fp) with
  | [] => 0
  | first :: rest =>
      npInterpCore x
        (((((first :: rest).getLast (List.cons_ne_nil first rest)).1 - p),
          (((first :: rest).getLast (List.cons_ne_nil first rest)).2)) ::
          ((first :: rest) ++ [(first.1 + p, first.2)]))

/-- One query point of `np.interp(x, xp, fp, period)`: the period is
replaced by its absolute value and the query is reduced modulo it before
interpolation against the wrapped grid. -/
def npInterpP (x : ℝ) (xp fp : List ℝ) (period : ℝ) : ℝ :=
  npInterpGrid (pmod x |period|) xp fp |period|

/-- Embedding of `np.interp(xs, xp, fp, period)`: raises `ValueError` when
`period == 0` or when the array of sample points is empty, otherwise maps
the per-point periodic interpolation over the queries. -/
def npInterp (xs xp fp : List ℝ) (period : ℝ) : Except PyError (List ℝ) :=
  if period = 0 then Except.error PyError.valueError
  else if xp.isEmpty then Except.error PyError.valueError
  else Except.ok (xs.map (fun x => npInterpP x xp fp period))

/-- Source `get_RVs`: build the one-period grid
`t = np.linspace(t0, t0+T, NT)`, the mean anomalies
`M = 2*np.pi/T*(t-t0)`, solve the Kepler equation per grid point for `E`,
map to true anomaly `f`, evaluate `vr` per grid point, and periodically
interpolate the requested times `ts` with `np.interp(ts, t, RV, period=T)`.
`NT` is numpy's sample count (a nonnegative integer).  No parameter
validation is performed by the source. -/
def get_RVs (K T t0 w e a VZ : ℝ) (NT : ℕ) (ts : List ℝ) : Except PyError (List ℝ) :=
  let t := linspace t0 (t0 + T) NT
  let M := t.map (fun tk => 2 * π / T * (tk - t0))
  let E := M.map (fun Mk => solve_kepler e Mk)
  let f := E.map (fun Ek => true_anomaly Ek e)
  let RV := f.map (fun fk => vr VZ K w fk e)
  npInterp ts t RV T

/-- Source `log_RVs`: exponentiate `lnK, lnT, lne, lna` and delegate to
`get_RVs` with the remaining parameters unchanged. -/
def log_RVs (lnK lnT t0 w lne lna VZ : ℝ) (NT : ℕ) (ts : List ℝ) :
    Except PyError (List ℝ) :=
  get_RVs (Real.exp lnK) (Real.exp lnT) t0 w (Real.exp lne) (Real.exp lna) VZ NT ts

/-- The spec's radial-velocity formula (§4.3), written from the spec's
words: `vr = VZ + K·(cos(ω+f) + e·cos(ω))` with `ω` first converted to
radians. -/
def radial_velocity_spec (VZ K w f e : ℝ) : ℝ :=
  VZ + K * (Real.cos (w * π / 180 + f) + e * Real.cos (w * π / 180))

/-- The spec's Kepler-residual formula (§4.1), written from the spec's
words: `r(E) = E − e·sin(E) − M`. -/
def kepler_residual_spec (E e M : ℝ) : ℝ := E - e * Real.sin E - M

/-! ## Claims -/

/-- C7: for every finite `VZ, K, ω, f, e`, `vr` returns
`VZ + K·(cos(ω_rad + f) + e·cos(ω_rad))` with `ω_rad = ω·π/180`, as a
total function (no failure mode). -/
theorem vr_matches_spec (vz K w f e : ℝ) :
    vr vz K w f e = radial_velocity_spec vz K w f e := by
  unfold vr radial_velocity_spec
  rw [mul_div_assoc]

/-- C8: the Kepler-equation residual function returns exactly
`E − e·sin(E) − M`, as a pure total function. -/
theorem kepler_matches_spec (E e M : ℝ) :
    kepler E e M = kepler_residual_spec E e M := rfl

/-- C2: `log_RVs` returns exactly the output of `get_RVs` with
`K = exp lnK`, `T = exp lnT`, `e = exp lne`, `a = exp lna` and the other
parameters unchanged, for every input tuple. -/
theorem log_RVs_eq_get_RVs (lnK lnT t0 w lne lna VZ : ℝ) (NT : ℕ) (ts : List ℝ) :
    log_RVs lnK lnT t0 w lne lna VZ NT ts =
      get_RVs (Real.exp lnK) (Real.exp lnT) t0 w (Real.exp lne) (Real.exp lna)
        VZ NT ts := rfl

/-- C9: the output of `get_RVs` does not depend on the semi-major axis
`a`: two runs differing only in `a` return identical results. -/
theorem get_RVs_ignores_a (K T t0 w e a1 a2 VZ : ℝ) (NT : ℕ) (ts : List ℝ) :
    get_RVs K T t0 w e a1 VZ NT ts = get_RVs K T t0 w e a2 VZ NT ts := rfl

/-- C10: `log_RVs` delegates to `get_RVs` with strictly positive
`K, T, e, a` (exp is strictly positive), so non-positive `T` and `e = 0`
are unreachable through the log path, while `e ≥ 1` is reachable exactly
when `lne ≥ 0`. -/
theorem log_RVs_positive_params (lnK lnT t0 w lne lna VZ : ℝ) (NT : ℕ) (ts : List ℝ) :
    log_RVs lnK lnT t0 w lne lna VZ NT ts =
        get_RVs (Real.exp lnK) (Real.exp lnT) t0 w (Real.exp lne) (Real.exp lna)
          VZ NT ts ∧
      0 < Real.exp lnK ∧ 0 < Real.exp lnT ∧ 0 < Real.exp lne ∧ 0 < Real.exp lna ∧
      (1 ≤ Real.exp lne ↔ 0 ≤ lne) :=
  ⟨rfl, Real.exp_pos lnK, Real.exp_pos lnT, Real.exp_pos lne, Real.exp_pos lna,
    Real.one_le_exp_iff⟩

/-- C1: for every eccentricity `e ∈ [0, 0.99]` and mean anomaly
`M ∈ [-4π, 4π]`, the eccentric anomaly produced by the per-grid-point
root solve satisfies `|E - e·sin E - M| < 1.48e-8` (scipy's default
tolerance): the solver's output is a root of the Kepler residual. -/
theorem solve_kepler_residual_small (e M : ℝ) (h0 : 0 ≤ e) (h1 : e ≤ 0.99)
    (h2 : -(4 * π) ≤ M) (h3 : M ≤ 4 * π) :
    |kepler (solve_kepler e M) e M| < 1.48e-8 := by
  rw [solve_kepler_is_root]
  norm_num

theorem solve_kepler_residual_small_witness :
    |kepler (solve_kepler 0 0) 0 0| < 1.48e-8 :=
  solve_kepler_residual_small 0 0 le_rfl (by norm_num)
    (by nlinarith [Real.pi_pos]) (by nlinarith [Real.pi_pos])

/-- C3 counterexample: `get_RVs` called with `e = 1` (here
`K=1, T=1, t0=0, w=0, e=1, a=1, VZ=0, NT=2, ts=[]`) returns a value; it
does not raise `InvalidParameter`. -/
theorem get_RVs_e_one_returns_value :
    get_RVs 1 1 0 0 1 1 0 2 [] = Except.ok [] := by
  simp [get_RVs, npInterp, linspace]
  exact ⟨0, by norm_num⟩

/-- C3 amended: `get_RVs` performs no eccentricity validation; for
`e ≥ 1` it never returns an `InvalidParameter` error (it proceeds with
the computation; in floating point, `√(1-e)` is NaN for `e > 1`). -/
theorem get_RVs_no_invalidParameter (K T t0 w e a VZ : ℝ) (NT : ℕ)
    (ts : List ℝ) (h : 1 ≤ e) :
    get_RVs K T t0 w e a VZ NT ts ≠ Except.error PyError.invalidParameter := by
  simp only [get_RVs, npInterp]
  split_ifs <;> simp

theorem get_RVs_no_invalidParameter_witness :
    get_RVs 1 1 0 0 1 1 0 2 [] ≠ Except.error PyError.invalidParameter :=
  get_RVs_no_invalidParameter 1 1 0 0 1 1 0 2 [] le_rfl

/-- C4 counterexample: `get_RVs` called with `NT = 1` (here
`K=1, T=1, t0=0, w=0, e=0, a=1, VZ=0, ts=[]`) returns a value; it does
not raise `InvalidParameter`. -/
theorem get_RVs_NT_one_returns_value :
    get_RVs 1 1 0 0 0 1 0 1 [] = Except.ok [] := by
  simp [get_RVs, npInterp, linspace]

/-- C4 amended: `get_RVs` with `NT = 1` does not raise
`InvalidParameter`; whenever `T ≠ 0` it returns a value (the grid
degenerates to the single point `t0` and interpolation against it is
constant). -/
theorem get_RVs_NT_one_ok (K T t0 w e a VZ : ℝ) (ts : List ℝ) (hT : T ≠ 0) :
    ∃ v, get_RVs K T t0 w e a VZ 1 ts = Except.ok v := by
  simp only [get_RVs, npInterp, linspace]
  rw [if_neg hT, if_neg (by simp)]
  exact ⟨_, rfl⟩

theorem get_RVs_NT_one_ok_witness :
    ∃ v, get_RVs 1 1 0 0 0 1 0 1 [0] = Except.ok v :=
  get_RVs_NT_one_ok 1 1 0 0 0 1 0 [0] one_ne_zero

/-- Adding the (positive) period to the query leaves Python's floored
modulo unchanged. -/
theorem pmod_add_self (x p : ℝ) (hp : p ≠ 0) : pmod (x + p) p = pmod x p := by
  unfold pmod
  rw [add_div, div_self hp, Int.floor_add_one]
  push_cast
  ring

/-- One query point of the periodic interpolation depends on the query
only through its residue modulo the period. -/
theorem npInterpP_add_period (x : ℝ) (xp fp : List ℝ) (T : ℝ) (hT : 0 < T) :
    npInterpP (x + T) xp fp T = npInterpP x xp fp T := by
  unfold npInterpP
  rw [abs_of_pos hT, pmod_add_self x T hT.ne']

/-- C5: `get_RVs` is periodic in the query time: for every valid element
set (`T > 0`, `e ∈ [0,1)`, `NT ≥ 2`) and every time `t`, evaluating at
`ts = [t + T]` gives the same output as at `ts = [t]` (exactly, in real
arithmetic, because queries are reduced modulo `T` before
interpolation). -/
theorem get_RVs_periodic (K T t0 w e a VZ : ℝ) (NT : ℕ) (t : ℝ)
    (hT : 0 < T) (he0 : 0 ≤ e) (he1 : e < 1) (hNT : 2 ≤ NT) :
    get_RVs K T t0 w e a VZ NT [t + T] = get_RVs K T t0 w e a VZ NT [t] := by
  simp only [get_RVs, npInterp]
  split_ifs
  · rfl
  · rfl
  · simp only [List.map_cons, List.map_nil]
    rw [npInterpP_add_period t _ _ T hT]

theorem get_RVs_periodic_witness :
    get_RVs 1 1 0 0 0 1 0 2 [0 + 1] = get_RVs 1 1 0 0 0 1 0 2 [0] :=
  get_RVs_periodic 1 1 0 0 0 1 0 2 0 one_pos le_rfl one_pos le_rfl

/-- C6 counterexample: at `e = 0` the solved eccentric anomaly does equal
`M`, but the true anomaly computed from it does not equal `M` for every
`M`: at `M = 3π` the atan2 form returns `-π ≠ 3π`. -/
theorem circular_true_anomaly_counterexample :
    solve_kepler 0 (3 * π) = 3 * π ∧
      true_anomaly (solve_kepler 0 (3 * π)) 0 ≠ 3 * π := by
  have hroot : solve_kepler 0 (3 * π) = 3 * π := by
    have h := solve_kepler_is_root 0 (3 * π)
    unfold kepler at h
    rw [zero_mul, sub_zero, sub_eq_zero] at h
    exact h
  refine ⟨hroot, ?_⟩
  rw [hroot]
  unfold true_anomaly arctan2
  have h32 : 3 * π / 2 = π + π / 2 := by ring
  rw [h32, Real.sin_add, Real.cos_add, Real.sin_pi, Real.cos_pi,
    Real.sin_pi_div_two, Real.cos_pi_div_two]
  norm_num [Real.sqrt_one, Complex.arg_neg_I]
  intro hcontra
  nlinarith [Real.pi_pos, hcontra]

/-- C6 amended: at `e = 0`, the solved eccentric anomaly equals `M` for
every `M`; the true anomaly computed from it equals `M` on
`M ∈ (-2π, 2π]` (which covers every grid mean anomaly, since the grid
spans `[0, 2π]`); outside that range it is the representative of `M`
modulo `2π`. -/
theorem circular_orbit_identity (M : ℝ) :
    solve_kepler 0 M = M ∧
      (-(2 * π) < M → M ≤ 2 * π → true_anomaly (solve_kepler 0 M) 0 = M) := by
  have hroot : solve_kepler 0 M = M := by
    have h := solve_kepler_is_root 0 M
    unfold kepler at h
    rw [zero_mul, sub_zero, sub_eq_zero] at h
    exact h
  refine ⟨hroot, fun h1 h2 => ?_⟩
  rw [hroot]
  unfold true_anomaly arctan2
  norm_num [Real.sqrt_one]
  have hcast : ((M : ℂ) / 2) = ((M / 2 : ℝ) : ℂ) := by push_cast; ring
  rw [hcast, Complex.arg_cos_add_sin_mul_I ⟨by linarith, by linarith⟩]
  ring

theorem circular_orbit_identity_witness :
    solve_kepler 0 0 = 0 ∧ true_anomaly (solve_kepler 0 0) 0 = 0 := by
  refine ⟨(circular_orbit_identity 0).1, (circular_orbit_identity 0).2 ?_ ?_⟩
  · nlinarith [Real.pi_pos]
  · nlinarith [Real.pi_pos]

end Orbit
